import Mathlib

/-!
Verification of the job aggregation / relevance-scoring pipeline of
`backend/app/job_search.py` (keyword generation, source adapters,
merge/deduplication, relevance scoring, search orchestration).

Python strings are modelled as lists of characters, and the dynamically
typed values flowing through the module (profile fields, parsed JSON
payloads, job records) as a small inductive type `PyVal` of Python-like
values.  Job records and profiles are Python dicts, modelled as
association lists.  Every definition mirrors the corresponding Python
function; network calls are abstracted by a provider oracle mapping each
queried keyword to the outcome of the HTTP call.
-/

/-- Python strings, modelled as lists of characters. -/
abbrev Str := List Char

/-- Embed a Lean string literal as a character-list string. -/
def str (s : String) : Str := s.data

/-- Python `s.lower()` (ASCII case folding as used by the module). -/
def lowerStr (s : Str) : Str := s.map Char.toLower

/-- Python `s.strip()`: remove leading and trailing whitespace. -/
def trimStr (s : Str) : Str :=
  ((s.dropWhile Char.isWhitespace).reverse.dropWhile Char.isWhitespace).reverse

/-- Python `a in b` on strings: contiguous substring test. -/
def inS (a b : Str) : Bool := decide (a <:+: b)

/-- Python-like dynamic values: `None`, strings, integers, lists, dicts. -/
inductive PyVal where
  | none : PyVal
  | str  (s : Str) : PyVal
  | int  (n : Int) : PyVal
  | list (xs : List PyVal) : PyVal
  | dict (kvs : List (Str × PyVal)) : PyVal

/-- A Python dict with string keys (association list, first key wins). -/
abbrev PyDict := List (Str × PyVal)

/-- Python `d.get(k, dflt)`. -/
def dictGet : PyDict → Str → PyVal → PyVal
  | [], _, dflt => dflt
  | (k', v) :: rest, k, dflt => if k' = k then v else dictGet rest k dflt

/-- Python `d[k] = v`: replace the value of an existing key in place,
append the binding at the end otherwise. -/
def dictSet : PyDict → Str → PyVal → PyDict
  | [], k, v => [(k, v)]
  | (k', w) :: rest, k, v =>
      if k' = k then (k', v) :: rest else (k', w) :: dictSet rest k v

/-- Python truthiness of a value. -/
def pyTruthy : PyVal → Bool
  | PyVal.none => false
  | PyVal.str s => !s.isEmpty
  | PyVal.int n => n != 0
  | PyVal.list xs => !xs.isEmpty
  | PyVal.dict kvs => !kvs.isEmpty

/-- Decimal rendering of an integer. -/
def intStr (n : Int) : Str :=
  if n < 0 then '-' :: Nat.toDigits 10 n.natAbs else Nat.toDigits 10 n.natAbs

/-- Single-quote character, used by Python `repr` of strings. -/
def quoteChar : Char := Char.ofNat 39

/-- Opening curly bracket character. -/
def obChar : Char := Char.ofNat 123

/-- Closing curly bracket character. -/
def cbChar : Char := Char.ofNat 125

/-- Interleave a separator between rendered elements. -/
def sepJoin (sep : Str) : List Str → Str
  | [] => []
  | [x] => x
  | x :: y :: rest => x ++ sep ++ sepJoin sep (y :: rest)

mutual

/-- Python `repr` of a value. -/
def pyRepr : PyVal → Str
  | PyVal.none => str "None"
  | PyVal.str s => quoteChar :: s ++ [quoteChar]
  | PyVal.int n => intStr n
  | PyVal.list xs => '[' :: sepJoin (str ", ") (pyReprList xs) ++ [']']
  | PyVal.dict kvs => obChar :: sepJoin (str ", ") (pyReprDict kvs) ++ [cbChar]

/-- Rendering via `repr` of each element of a list literal. -/
def pyReprList : List PyVal → List Str
  | [] => []
  | x :: xs => pyRepr x :: pyReprList xs

/-- Rendering via `repr` of each `key: value` entry of a dict literal. -/
def pyReprDict : List (Str × PyVal) → List Str
  | [] => []
  | kv :: kvs =>
      ((quoteChar :: kv.1 ++ [quoteChar]) ++ str ": " ++ pyRepr kv.2)
        :: pyReprDict kvs

end

/-- Python `str(v)`: a string renders as itself, everything else via
`repr`. -/
def pyStr (v : PyVal) : Str :=
  match v with
  | PyVal.str s => s
  | v => pyRepr v

/-- Python `int(v)` on a trimmed string: optional sign then digits. -/
def parseIntStr (s : Str) : Option Int :=
  match s with
  | '-' :: ds =>
      if ds ≠ [] ∧ ds.all Char.isDigit
      then Option.some (-(Int.ofNat (Nat.ofDigits 10 (ds.map Char.toNat |>.map (· - 48)).reverse)))
      else Option.none
  | '+' :: ds =>
      if ds ≠ [] ∧ ds.all Char.isDigit
      then Option.some (Int.ofNat (Nat.ofDigits 10 (ds.map Char.toNat |>.map (· - 48)).reverse))
      else Option.none
  | ds =>
      if ds ≠ [] ∧ ds.all Char.isDigit
      then Option.some (Int.ofNat (Nat.ofDigits 10 (ds.map Char.toNat |>.map (· - 48)).reverse))
      else Option.none

/-- Python `int(v)`: succeeds on integers and integer-shaped strings,
raises (`Option.none`) on everything else. -/
def pyToInt : PyVal → Option Int
  | PyVal.int n => Option.some n
  | PyVal.str s => parseIntStr (trimStr s)
  | _ => Option.none


/-! ## Merger / deduplicator (`merge_results`) -/

/-- Dedup key of `merge_results`: the case-insensitive, trimmed
`(title, company, location)` triple (`str(x).lower().strip()` each). -/
def uidOf (job : PyDict) : Str × Str × Str :=
  (trimStr (lowerStr (pyStr (dictGet job (str "title") (PyVal.str [])))),
   trimStr (lowerStr (pyStr (dictGet job (str "company") (PyVal.str [])))),
   trimStr (lowerStr (pyStr (dictGet job (str "location") (PyVal.str [])))))

/-- Inner loop of `merge_results` over the jobs of one source: keep a job
when its key is unseen and `job.get("title")` is truthy, threading the
set of seen keys. -/
def mergeSrc (seen : List (Str × Str × Str)) :
    List PyDict → List (Str × Str × Str) × List PyDict
  | [] => (seen, [])
  | job :: rest =>
      if uidOf job ∉ seen ∧ pyTruthy (dictGet job (str "title") PyVal.none) then
        let p := mergeSrc (uidOf job :: seen) rest
        (p.1, job :: p.2)
      else mergeSrc seen rest

/-- Outer loop of `merge_results` over the sources, in call order. -/
def mergeAll (seen : List (Str × Str × Str)) :
    List (List PyDict) → List (Str × Str × Str) × List PyDict
  | [] => (seen, [])
  | src :: rest =>
      let p := mergeSrc seen src
      let q := mergeAll p.1 rest
      (q.1, p.2 ++ q.2)

/-- Python `merge_results(*sources)`: merge job lists, dropping duplicates and
falsy-titled records. -/
def merge_results (sources : List (List PyDict)) : List PyDict :=
  (mergeAll [] sources).2

/-! ## Keyword generator (`generate_keywords`) -/

/-- Role candidate of `generate_keywords` (line 31): truthy string not
equal (case-insensitively, untrimmed) to null/none/empty, added
stripped. -/
def roleAdds (profile : PyDict) : List Str :=
  match dictGet profile (str "role") (PyVal.str []) with
  | PyVal.str r =>
      if r ≠ [] ∧ lowerStr r ∉ [str "null", str "none", str ""]
      then [trimStr r] else []
  | _ => []

/-- Skill candidates: truthy strings whose stripped length exceeds 2. -/
def skillAdds (profile : PyDict) : List Str :=
  match dictGet profile (str "skills") (PyVal.list []) with
  | PyVal.list xs =>
      xs.filterMap fun sk =>
        match sk with
        | PyVal.str s =>
            if s ≠ [] ∧ 2 < (trimStr s).length
            then Option.some (trimStr s) else Option.none
        | _ => Option.none
  | _ => []

/-- Experience candidates: role and company of each experience entry. -/
def expAdds (profile : PyDict) : List Str :=
  match dictGet profile (str "experience_details") (PyVal.list []) with
  | PyVal.list xs =>
      (xs.map fun e =>
        match e with
        | PyVal.dict d =>
            (match dictGet d (str "role") (PyVal.str []) with
             | PyVal.str s => if s ≠ [] then [trimStr s] else []
             | _ => []) ++
            (match dictGet d (str "company") (PyVal.str []) with
             | PyVal.str s => if s ≠ [] then [trimStr s] else []
             | _ => [])
        | _ => []).flatten
  | _ => []

/-- Education candidates: the degree of each education entry. -/
def eduAdds (profile : PyDict) : List Str :=
  match dictGet profile (str "education") (PyVal.list []) with
  | PyVal.list xs =>
      xs.filterMap fun e =>
        match e with
        | PyVal.dict d =>
            match dictGet d (str "degree") (PyVal.str []) with
            | PyVal.str s =>
                if s ≠ [] then Option.some (trimStr s) else Option.none
            | _ => Option.none
        | _ => Option.none
  | _ => []

/-- Certification candidates: truthy strings with stripped length > 2. -/
def certAdds (profile : PyDict) : List Str :=
  match dictGet profile (str "certifications") (PyVal.list []) with
  | PyVal.list xs =>
      xs.filterMap fun c =>
        match c with
        | PyVal.str s =>
            if s ≠ [] ∧ 2 < (trimStr s).length
            then Option.some (trimStr s) else Option.none
        | _ => Option.none
  | _ => []

/-- The sequence of `keywords.add(...)` calls performed by
`generate_keywords`, in program order (with repetitions). -/
def kwAdds (profile : PyDict) : List Str :=
  roleAdds profile ++ skillAdds profile ++ expAdds profile ++
    eduAdds profile ++ certAdds profile

/-- Keep the first occurrence of each element not already emitted. -/
def firstDedupAux (seen : List Str) : List Str → List Str
  | [] => []
  | x :: xs =>
      if x ∈ seen then firstDedupAux seen xs
      else x :: firstDedupAux (x :: seen) xs

/-- Keep the first occurrence of each element (set membership of the
accumulated Python `set`, in insertion order). -/
def firstDedup (l : List Str) : List Str := firstDedupAux [] l

/-- The keyword set after the final comprehension filter (line 71): one
canonical enumeration; only membership is determined by the code, since
Python set iteration order is unspecified. -/
def candSet (profile : PyDict) : List Str :=
  (firstDedup (kwAdds profile)).filter
    (fun k => decide (k ≠ [] ∧ lowerStr k ∉ [str "null", str "none", str "n/a", str ""]))

/-- The tail of `generate_keywords` after `keyword_list = list(keywords)`:
move the (unstripped) role to the front when it occurs in the list, then
truncate to 8 entries.  `kl` is the enumeration of the keyword set. -/
def finalizeKeywords (roleV : PyVal) (kl : List Str) : List Str :=
  (match roleV with
   | PyVal.str r => if r ≠ [] ∧ r ∈ kl then r :: kl.erase r else kl
   | _ => kl).take 8

/-- Python `generate_keywords(profile)`, given an enumeration `kl` of the
keyword set (Python set order is unspecified; theorems quantify over all
permutations of `candSet`). -/
def generate_keywords_from (profile : PyDict) (kl : List Str) : List Str :=
  finalizeKeywords (dictGet profile (str "role") (PyVal.str [])) kl


/-! ## Relevance scorer (`score_relevance`) -/

/-- Python `job_title = str(job.get("title", "")).lower()`. -/
def jobTitleL (job : PyDict) : Str :=
  lowerStr (pyStr (dictGet job (str "title") (PyVal.str [])))

/-- Python `job_desc = str(job.get("description", "")).lower()`. -/
def jobDescL (job : PyDict) : Str :=
  lowerStr (pyStr (dictGet job (str "description") (PyVal.str [])))

/-- Role rule block: +15 when the role occurs in the title, +7 when it
occurs in the description. -/
def roleScore (job profile : PyDict) : Int :=
  match dictGet profile (str "role") (PyVal.str []) with
  | PyVal.str r =>
      if r ≠ [] ∧ lowerStr r ∉ [str "null", str "none", str ""] then
        (if inS (lowerStr r) (jobTitleL job) then 15 else 0) +
        (if inS (lowerStr r) (jobDescL job) then 7 else 0)
      else 0
  | _ => 0

/-- Per-skill rule: +10 for a title match, +4 for a description match;
string skills and `{name}`/`{skill}` objects are both supported. -/
def skillItemScore (t d : Str) : PyVal → Int
  | PyVal.str s =>
      if lowerStr s ∉ [str "null", str "none", str ""] then
        (if inS (lowerStr s) t then 10 else 0) +
        (if inS (lowerStr s) d then 4 else 0)
      else 0
  | PyVal.dict kv =>
      let nm := lowerStr (pyStr (dictGet kv (str "name")
        (dictGet kv (str "skill") (PyVal.str []))))
      if nm ≠ [] ∧ nm ∉ [str "null", str "none", str ""] then
        (if inS nm t then 10 else 0) + (if inS nm d then 4 else 0)
      else 0
  | _ => 0

/-- Skills rule block: sum of the per-skill rule over the skills list. -/
def skillScore (job profile : PyDict) : Int :=
  match dictGet profile (str "skills") (PyVal.list []) with
  | PyVal.list xs => (xs.map (skillItemScore (jobTitleL job) (jobDescL job))).sum
  | _ => 0

/-- Per-certification rule: +8 when it occurs in title or description. -/
def certItemScore (t d : Str) : PyVal → Int
  | PyVal.str s =>
      if lowerStr s ∉ [str "null", str "none", str ""] then
        if inS (lowerStr s) t ∨ inS (lowerStr s) d then 8 else 0
      else 0
  | PyVal.dict kv =>
      let nm := lowerStr (pyStr (dictGet kv (str "name")
        (dictGet kv (str "certification") (PyVal.str []))))
      if nm ≠ [] ∧ nm ∉ [str "null", str "none", str ""] then
        if inS nm t ∨ inS nm d then 8 else 0
      else 0
  | _ => 0

/-- Certifications rule block. -/
def certScore (job profile : PyDict) : Int :=
  match dictGet profile (str "certifications") (PyVal.list []) with
  | PyVal.list xs => (xs.map (certItemScore (jobTitleL job) (jobDescL job))).sum
  | _ => 0

/-- Per-education rule: +6 when the degree occurs in title or
description. -/
def eduItemScore (t d : Str) : PyVal → Int
  | PyVal.dict e =>
      match dictGet e (str "degree") (PyVal.str []) with
      | PyVal.str s =>
          if s ≠ [] then
            if lowerStr s ≠ [] ∧ lowerStr s ∉ [str "null", str "none", str ""] then
              if inS (lowerStr s) t ∨ inS (lowerStr s) d then 6 else 0
            else 0
          else 0
      | _ => 0
  | _ => 0

/-- Education rule block. -/
def eduScore (job profile : PyDict) : Int :=
  match dictGet profile (str "education") (PyVal.list []) with
  | PyVal.list xs => (xs.map (eduItemScore (jobTitleL job) (jobDescL job))).sum
  | _ => 0

/-- Experience-level rule block: +5 when the parsed number of years and
the title's seniority markers agree; a failing `int()` conversion
contributes nothing. -/
def expScore (job profile : PyDict) : Int :=
  let ey := dictGet profile (str "experience_years") PyVal.none
  if pyTruthy ey ∧ lowerStr (pyStr ey) ∉ [str "null", str "none", str "0"] then
    match pyToInt ey with
    | Option.some years =>
        let t := jobTitleL job
        if 5 ≤ years ∧ (inS (str "senior") t ∨ inS (str "lead") t) then 5
        else if 2 ≤ years ∧ years < 5 ∧
            (inS (str "mid") t ∨ inS (str "intermediate") t) then 5
        else if years < 2 ∧
            (inS (str "junior") t ∨ inS (str "entry") t ∨ inS (str "fresher") t)
          then 5
        else 0
    | Option.none => 0
  else 0

/-- Python `s.split()`: split on whitespace runs, no empty tokens.
`cur` accumulates the current token in reverse. -/
def wordsAux (cur : Str) : Str → List Str
  | [] => if cur = [] then [] else [cur.reverse]
  | c :: cs =>
      if c.isWhitespace then
        if cur = [] then wordsAux [] cs else cur.reverse :: wordsAux [] cs
      else wordsAux (c :: cur) cs

/-- Python `s.split()` with no arguments. -/
def pyWords (s : Str) : List Str := wordsAux [] s

/-- Python `profile_location`: lower-cased rendering when the raw value is
truthy, the empty string otherwise. -/
def plOf (profile : PyDict) : Str :=
  if pyTruthy (dictGet profile (str "location") PyVal.none) then
    lowerStr (pyStr (dictGet profile (str "location") (PyVal.str [])))
  else []

/-- Python `job_location`, computed the same way from the job record. -/
def jlOf (job : PyDict) : Str :=
  if pyTruthy (dictGet job (str "location") PyVal.none) then
    lowerStr (pyStr (dictGet job (str "location") (PyVal.str [])))
  else []

/-- Location rule block: +8 for a full substring match, +3 (once, via
the `break`) when some token of length > 2 occurs in the job location. -/
def locScore (job profile : PyDict) : Int :=
  let pl := plOf profile
  let jl := jlOf job
  if pl ≠ [] ∧ pl ∉ [str "null", str "none", str ""] then
    (if inS pl jl then 8 else 0) +
    (if (pyWords pl).any (fun part => decide (2 < part.length) && inS part jl)
     then 3 else 0)
  else 0

/-- Per-language rule: +4 for a description match, skipping "english". -/
def langItemScore (d : Str) : PyVal → Int
  | PyVal.str s =>
      if lowerStr s ∉ [str "null", str "none", str "english"] then
        if inS (lowerStr s) d then 4 else 0
      else 0
  | PyVal.dict kv =>
      let nm := lowerStr (pyStr (dictGet kv (str "language")
        (dictGet kv (str "name") (PyVal.str []))))
      if nm ≠ [] ∧ nm ∉ [str "null", str "none", str "english"] then
        if inS nm d then 4 else 0
      else 0
  | _ => 0

/-- Languages rule block. -/
def langScore (job profile : PyDict) : Int :=
  match dictGet profile (str "languages") (PyVal.list []) with
  | PyVal.list xs => (xs.map (langItemScore (jobDescL job))).sum
  | _ => 0

/-- Python `score_relevance(job, profile)`: the sum of the additive rule
blocks, in program order. -/
def score_relevance (job profile : PyDict) : Int :=
  roleScore job profile + skillScore job profile + certScore job profile +
    eduScore job profile + expScore job profile + locScore job profile +
    langScore job profile

/-! ## Orchestrator tail of `search_jobs`: score, filter, sort -/

/-- The sort key `x["relevance_score"]` read back from the record. -/
def scoreKey (j : PyDict) : Int :=
  match dictGet j (str "relevance_score") PyVal.none with
  | PyVal.int n => n
  | _ => 0

/-- One insertion step of a stable descending sort on `scoreKey`:
`x` is placed before the first element not strictly greater. -/
def insertDesc (x : PyDict) : List PyDict → List PyDict
  | [] => [x]
  | y :: ys =>
      if scoreKey y ≤ scoreKey x then x :: y :: ys else y :: insertDesc x ys

/-- Stable descending sort on `scoreKey` (`list.sort(key=..., reverse=True)`
is a stable sort; any stable sort computes the same list). -/
def sortDesc (l : List PyDict) : List PyDict := l.foldr insertDesc []

/-- The tail of `search_jobs` after the adapters returned: merge the
per-source lists, attach the relevance score to each job clearing
`min_score`, and sort descending by score.  The three adapter outputs are
parameters (the HTTP fetches are environment inputs). -/
def search_jobs_from (adzuna jooble serpapi : List PyDict)
    (profile : PyDict) (min_score : Int) : List PyDict :=
  let all_jobs := merge_results [adzuna, jooble, serpapi]
  let scored_jobs := all_jobs.filterMap fun job =>
    let relevance := score_relevance job profile
    if min_score ≤ relevance then
      Option.some (dictSet job (str "relevance_score") (PyVal.int relevance))
    else Option.none
  sortDesc scored_jobs

/-! ## Source adapter (`fetch_adzuna`), over a provider oracle -/

/-- Outcome of one HTTP call: an exception (network error), or a
response with a status code and a JSON body (`Option.none` body means
`r.json()` raises on a malformed payload). -/
inductive CallResult where
  | exn : CallResult
  | ok (status : Int) (body : Option PyVal) : CallResult

/-- Iterating `for job in items`: lists yield their elements, empty
strings and dicts yield nothing, anything else raises at the first item
(`.get` on a non-dict) before any record is produced. -/
def iterItems : PyVal → Except Unit (List PyVal)
  | PyVal.list xs => Except.ok xs
  | PyVal.str [] => Except.ok []
  | PyVal.dict [] => Except.ok []
  | _ => Except.error ()

/-- Build one Adzuna job record from a parsed JSON item; `Except.error`
models an exception while reading the item (non-dict item, `.get` on a
non-dict `company`/`location`, slicing a non-sliceable description). -/
def adzunaItem (location : Str) (it : PyVal) : Except Unit PyDict :=
  match it with
  | PyVal.dict j =>
      match dictGet j (str "company") (PyVal.dict []),
            dictGet j (str "location") (PyVal.dict []),
            dictGet j (str "description") (PyVal.str []) with
      | PyVal.dict c, PyVal.dict l, desc =>
          match (match desc with
                 | PyVal.str s => Except.ok (PyVal.str (s.take 300))
                 | PyVal.list xs => Except.ok (PyVal.list (xs.take 300))
                 | _ => Except.error ()) with
          | Except.ok desc' =>
              Except.ok
                [(str "source", PyVal.str (str "Adzuna")),
                 (str "title", dictGet j (str "title") (PyVal.str [])),
                 (str "company",
                    dictGet c (str "display_name") (PyVal.str (str "N/A"))),
                 (str "location",
                    dictGet l (str "display_name") (PyVal.str location)),
                 (str "url", dictGet j (str "redirect_url") (PyVal.str [])),
                 (str "description", desc'),
                 (str "salary",
                    dictGet j (str "salary_max") (PyVal.str (str "Not specified")))]
          | Except.error e => Except.error e
      | _, _, _ => Except.error ()
  | _ => Except.error ()

/-- Append the records of one keyword's result page one by one; a raise
mid-iteration keeps the records already appended and aborts the adapter
(second component `true`). -/
def collectItems (location : Str) :
    List PyVal → List PyDict → List PyDict × Bool
  | [], acc => (acc, false)
  | it :: rest, acc =>
      match adzunaItem location it with
      | Except.ok job => collectItems location rest (acc ++ [job])
      | Except.error _ => (acc, true)

/-- Process one keyword: a raising call or malformed payload aborts the
adapter; a non-200 status skips the keyword; a 200 response has its
`results` list appended. -/
def adzunaStep (provider : Str → CallResult) (location : Str) (kw : Str)
    (acc : List PyDict) : List PyDict × Bool :=
  match provider kw with
  | CallResult.exn => (acc, true)
  | CallResult.ok status body =>
      if status = 200 then
        match body with
        | Option.none => (acc, true)
        | Option.some data =>
            match data with
            | PyVal.dict d =>
                match iterItems (dictGet d (str "results") (PyVal.list [])) with
                | Except.ok items => collectItems location items acc
                | Except.error _ => (acc, true)
            | _ => (acc, true)
      else (acc, false)

/-- The keyword loop inside the adapter's `try` block: stop at the first
raise, returning the records collected so far (the `except` clause). -/
def adzunaLoop (provider : Str → CallResult) (location : Str) :
    List Str → List PyDict → List PyDict
  | [], acc => acc
  | kw :: rest, acc =>
      let p := adzunaStep provider location kw acc
      if p.2 then p.1 else adzunaLoop provider location rest p.1

/-- Python `fetch_adzuna(keywords, location)` over a provider oracle: query the
first 3 keywords in order; any exception ends the run with the records
collected so far, never propagating. -/
def fetch_adzuna (provider : Str → CallResult) (keywords : List Str)
    (location : Str) : List PyDict :=
  adzunaLoop provider location (keywords.take 3) []

/-! ## Spec-side merge contract and concrete fixtures -/

/-- Spec-side dedup: keep the first occurrence of each identity key,
scanning in order. -/
def firstOccByKey (seen : List (Str × Str × Str)) : List PyDict → List PyDict
  | [] => []
  | job :: rest =>
      if uidOf job ∈ seen then firstOccByKey seen rest
      else job :: firstOccByKey (uidOf job :: seen) rest

/-- The merge contract as the spec words it, restricted to records with
a truthy title: first occurrence per key over the concatenation of the
sources in call order. -/
def specMerge (sources : List (List PyDict)) : List PyDict :=
  firstOccByKey []
    (sources.flatten.filter fun j => pyTruthy (dictGet j (str "title") PyVal.none))

/-- End-to-end fixture profile
`{role: "Software Engineer", skills: ["Python"], location: "Pune"}`. -/
def profileC9 : PyDict :=
  [(str "role", PyVal.str (str "Software Engineer")),
   (str "skills", PyVal.list [PyVal.str (str "Python")]),
   (str "location", PyVal.str (str "Pune"))]

/-- End-to-end fixture job
`{title: "Senior Software Engineer", description: "Python required",
company: "X", location: "Pune, India"}`. -/
def jobC9 : PyDict :=
  [(str "title", PyVal.str (str "Senior Software Engineer")),
   (str "description", PyVal.str (str "Python required")),
   (str "company", PyVal.str (str "X")),
   (str "location", PyVal.str (str "Pune, India"))]

/-- Fixture `{title: "Driver", company: "A", location: "Pune"}`. -/
def jobDriverA : PyDict :=
  [(str "title", PyVal.str (str "Driver")),
   (str "company", PyVal.str (str "A")),
   (str "location", PyVal.str (str "Pune"))]

/-- Fixture `{title: "driver", company: "a", location: "pune"}`. -/
def jobDriverB : PyDict :=
  [(str "title", PyVal.str (str "driver")),
   (str "company", PyVal.str (str "a")),
   (str "location", PyVal.str (str "pune"))]

/-- A record whose title is a single space: truthy, but empty after
trimming. -/
def jobBlankTitle : PyDict := [(str "title", PyVal.str (str " "))]

/-- A record whose title is the empty string (falsy). -/
def jobEmptyTitle : PyDict :=
  [(str "title", PyVal.str (str "")),
   (str "company", PyVal.str (str "A")),
   (str "location", PyVal.str (str "Pune"))]

/-- A profile whose role carries a leading space but trims to a keyword
that survives filtering. -/
def profileWsRole : PyDict :=
  [(str "role", PyVal.str (str " Driver")),
   (str "skills", PyVal.list [PyVal.str (str "Driving")])]

/-- A possible Python set enumeration of `candSet profileWsRole` that
lists the skill before the trimmed role. -/
def klWsRole : List Str := [str "Driving", str "Driver"]

/-- A well-formed Adzuna page with one job titled "Data Entry". -/
def adzunaBodyB : PyVal :=
  PyVal.dict [(str "results",
    PyVal.list [PyVal.dict [(str "title", PyVal.str (str "Data Entry"))]])]

/-- A provider that raises on every keyword except `"b"`, which returns
a healthy page. -/
def providerC5 : Str → CallResult := fun k =>
  if k = str "b" then CallResult.ok 200 (Option.some adzunaBodyB)
  else CallResult.exn

/-! ## Dictionary lemmas -/

theorem dictGet_dictSet_eq (p : PyDict) (k : Str) (v d : PyVal) :
    dictGet (dictSet p k v) k d = v := by
  induction p with
  | nil => simp [dictSet, dictGet]
  | cons kv rest ih =>
      obtain ⟨a, w⟩ := kv
      by_cases h : a = k
      · subst h; simp [dictSet, dictGet]
      · simp [dictSet, dictGet, h, ih]

theorem dictGet_dictSet_ne (p : PyDict) (k k' : Str) (v d : PyVal)
    (h : k' ≠ k) : dictGet (dictSet p k v) k' d = dictGet p k' d := by
  induction p with
  | nil => simp [dictSet, dictGet, Ne.symm h]
  | cons kv rest ih =>
      obtain ⟨a, w⟩ := kv
      by_cases hk : a = k
      · subst hk; simp [dictSet, dictGet, Ne.symm h]
      · simp [dictSet, dictGet, hk, ih]

/-! ## Non-negativity of the scoring rule blocks -/

theorem roleScore_nonneg (job profile : PyDict) : 0 ≤ roleScore job profile := by
  unfold roleScore
  split <;> repeat first | split | omega

theorem skillItemScore_nonneg (t d : Str) (v : PyVal) :
    0 ≤ skillItemScore t d v := by
  unfold skillItemScore
  split <;> (try dsimp only) <;> (repeat first | split | omega)

theorem skillScore_nonneg (job profile : PyDict) : 0 ≤ skillScore job profile := by
  unfold skillScore
  split
  · exact List.sum_nonneg fun x hx => by
      obtain ⟨v, -, rfl⟩ := List.mem_map.1 hx
      exact skillItemScore_nonneg _ _ v
  · omega

theorem certItemScore_nonneg (t d : Str) (v : PyVal) :
    0 ≤ certItemScore t d v := by
  unfold certItemScore
  split <;> (try dsimp only) <;> (repeat first | split | omega)

theorem certScore_nonneg (job profile : PyDict) : 0 ≤ certScore job profile := by
  unfold certScore
  split
  · exact List.sum_nonneg fun x hx => by
      obtain ⟨v, -, rfl⟩ := List.mem_map.1 hx
      exact certItemScore_nonneg _ _ v
  · omega

theorem eduItemScore_nonneg (t d : Str) (v : PyVal) :
    0 ≤ eduItemScore t d v := by
  unfold eduItemScore
  split <;> repeat first | split | omega

theorem eduScore_nonneg (job profile : PyDict) : 0 ≤ eduScore job profile := by
  unfold eduScore
  split
  · exact List.sum_nonneg fun x hx => by
      obtain ⟨v, -, rfl⟩ := List.mem_map.1 hx
      exact eduItemScore_nonneg _ _ v
  · omega

theorem expScore_nonneg (job profile : PyDict) : 0 ≤ expScore job profile := by
  unfold expScore
  dsimp only
  repeat first | split | omega

theorem locScore_nonneg (job profile : PyDict) : 0 ≤ locScore job profile := by
  unfold locScore
  dsimp only
  repeat first | split | omega

theorem langItemScore_nonneg (d : Str) (v : PyVal) :
    0 ≤ langItemScore d v := by
  unfold langItemScore
  split <;> (try dsimp only) <;> (repeat first | split | omega)

theorem langScore_nonneg (job profile : PyDict) : 0 ≤ langScore job profile := by
  unfold langScore
  split
  · exact List.sum_nonneg fun x hx => by
      obtain ⟨v, -, rfl⟩ := List.mem_map.1 hx
      exact langItemScore_nonneg _ v
  · omega

theorem score_relevance_nonneg (job profile : PyDict) :
    0 ≤ score_relevance job profile := by
  unfold score_relevance
  have h1 := roleScore_nonneg job profile
  have h2 := skillScore_nonneg job profile
  have h3 := certScore_nonneg job profile
  have h4 := eduScore_nonneg job profile
  have h5 := expScore_nonneg job profile
  have h6 := locScore_nonneg job profile
  have h7 := langScore_nonneg job profile
  omega

/-! ## Sanity checks of the embedding on concrete values -/

example : pyToInt (PyVal.str (str " 42 ")) = Option.some 42 := by decide
example : pyToInt (PyVal.str (str "abc")) = Option.none := by decide
example : pyToInt (PyVal.str (str "-7")) = Option.some (-7) := by decide
example : pyStr PyVal.none = str "None" := by decide
example : pyStr (PyVal.int 45) = str "45" := rfl
example : trimStr (str "  a b ") = str "a b" := by decide
example : inS (str "pune") (str "pune, india") = true := by decide
example : inS (str "python") (str "senior software engineer") = false := by decide
example : pyWords (str " pune  india ") = [str "pune", str "india"] := by decide
example : merge_results [[jobDriverA], [jobDriverB]] = [jobDriverA] := rfl
example : roleScore jobC9 profileC9 = 15 := by decide
example : skillScore jobC9 profileC9 = 4 := by decide
example : locScore jobC9 profileC9 = 11 := by decide

/-! ## C7: the scorer is total and non-negative -/

/-- C7: for every job record and every profile, with arbitrary
(including malformed or non-integer) values in every profile field,
`score_relevance` terminates without raising and returns a non-negative
integer; an `experience_years` value that fails integer conversion makes
the experience-level rule contribute nothing.  (Totality holds by
construction: `score_relevance` is a total function on all `PyVal`
dictionaries.) -/
theorem score_relevance_total_nonneg (job profile : PyDict) :
    0 ≤ score_relevance job profile ∧
      (pyToInt (dictGet profile (str "experience_years") PyVal.none) =
          Option.none →
        expScore job profile = 0) := by
  refine ⟨score_relevance_nonneg job profile, fun h => ?_⟩
  unfold expScore
  dsimp only
  rw [h]
  split <;> rfl

/-- Witness for C7 at a profile whose `experience_years` is the
non-numeric string "ten". -/
theorem score_relevance_total_nonneg_witness :
    0 ≤ score_relevance [] [(str "experience_years", PyVal.str (str "ten"))] ∧
      expScore [] [(str "experience_years", PyVal.str (str "ten"))] = 0 := by
  have h := score_relevance_total_nonneg []
    [(str "experience_years", PyVal.str (str "ten"))]
  exact ⟨h.1, h.2 (by decide)⟩

/-! ## C8: adding a matching skill never decreases the score -/

/-- C8: for every fixed job and profile, appending to the skills list a
skill whose lower-cased text occurs in the job's title or description
never decreases `score_relevance`. -/
theorem score_relevance_skill_append_mono (job profile : PyDict)
    (xs : List PyVal) (s : Str)
    (hskills : dictGet profile (str "skills") (PyVal.list []) = PyVal.list xs)
    (_hmatch : lowerStr s <:+: jobTitleL job ∨ lowerStr s <:+: jobDescL job) :
    score_relevance job profile ≤
      score_relevance job
        (dictSet profile (str "skills") (PyVal.list (xs ++ [PyVal.str s]))) := by
  have hne : ∀ (k : Str) (d : PyVal), k ≠ str "skills" →
      dictGet (dictSet profile (str "skills")
          (PyVal.list (xs ++ [PyVal.str s]))) k d = dictGet profile k d :=
    fun k d hk =>
      dictGet_dictSet_ne profile (str "skills") k (PyVal.list (xs ++ [PyVal.str s])) d hk
  have hrole : roleScore job (dictSet profile (str "skills")
      (PyVal.list (xs ++ [PyVal.str s]))) = roleScore job profile := by
    unfold roleScore; rw [hne (str "role") (PyVal.str []) (by decide)]
  have hcert : certScore job (dictSet profile (str "skills")
      (PyVal.list (xs ++ [PyVal.str s]))) = certScore job profile := by
    unfold certScore; rw [hne (str "certifications") (PyVal.list []) (by decide)]
  have hedu : eduScore job (dictSet profile (str "skills")
      (PyVal.list (xs ++ [PyVal.str s]))) = eduScore job profile := by
    unfold eduScore; rw [hne (str "education") (PyVal.list []) (by decide)]
  have hexp : expScore job (dictSet profile (str "skills")
      (PyVal.list (xs ++ [PyVal.str s]))) = expScore job profile := by
    unfold expScore; rw [hne (str "experience_years") PyVal.none (by decide)]
  have hloc : locScore job (dictSet profile (str "skills")
      (PyVal.list (xs ++ [PyVal.str s]))) = locScore job profile := by
    unfold locScore plOf
    rw [hne (str "location") PyVal.none (by decide),
        hne (str "location") (PyVal.str []) (by decide)]
  have hlang : langScore job (dictSet profile (str "skills")
      (PyVal.list (xs ++ [PyVal.str s]))) = langScore job profile := by
    unfold langScore; rw [hne (str "languages") (PyVal.list []) (by decide)]
  have hskill : skillScore job (dictSet profile (str "skills")
      (PyVal.list (xs ++ [PyVal.str s])))
      = skillScore job profile +
          skillItemScore (jobTitleL job) (jobDescL job) (PyVal.str s) := by
    unfold skillScore
    rw [dictGet_dictSet_eq, hskills]
    simp
  have hpos := skillItemScore_nonneg (jobTitleL job) (jobDescL job) (PyVal.str s)
  unfold score_relevance
  rw [hrole, hcert, hedu, hexp, hloc, hlang, hskill]
  omega

/-- Witness for C8: appending the matching skill "python" to an empty
skills list. -/
theorem score_relevance_skill_append_mono_witness :
    score_relevance jobC9 [(str "skills", PyVal.list [])] ≤
      score_relevance jobC9
        (dictSet [(str "skills", PyVal.list [])] (str "skills")
          (PyVal.list ([] ++ [PyVal.str (str "python")]))) :=
  score_relevance_skill_append_mono jobC9 [(str "skills", PyVal.list [])]
    [] (str "python") rfl (Or.inr (by decide))

/-! ## Merge lemmas and C3 / C4 -/

theorem mergeSrc_cons_pos {seen : List (Str × Str × Str)} {job : PyDict}
    {rest : List PyDict}
    (h : uidOf job ∉ seen ∧ pyTruthy (dictGet job (str "title") PyVal.none) = true) :
    mergeSrc seen (job :: rest) =
      ((mergeSrc (uidOf job :: seen) rest).1,
        job :: (mergeSrc (uidOf job :: seen) rest).2) := by
  simp only [mergeSrc, if_pos h]

theorem mergeSrc_cons_neg {seen : List (Str × Str × Str)} {job : PyDict}
    {rest : List PyDict}
    (h : ¬(uidOf job ∉ seen ∧
        pyTruthy (dictGet job (str "title") PyVal.none) = true)) :
    mergeSrc seen (job :: rest) = mergeSrc seen rest := by
  simp only [mergeSrc, if_neg h]

theorem mergeSrc_append (a b : List PyDict) :
    ∀ seen, mergeSrc seen (a ++ b) =
      ((mergeSrc (mergeSrc seen a).1 b).1,
        (mergeSrc seen a).2 ++ (mergeSrc (mergeSrc seen a).1 b).2) := by
  induction a with
  | nil => intro seen; simp [mergeSrc]
  | cons job rest ih =>
      intro seen
      by_cases h : uidOf job ∉ seen ∧
          pyTruthy (dictGet job (str "title") PyVal.none) = true
      · rw [List.cons_append, mergeSrc_cons_pos h, mergeSrc_cons_pos h, ih]
        rfl
      · rw [List.cons_append, mergeSrc_cons_neg h, mergeSrc_cons_neg h, ih]

theorem mergeAll_eq_flatten (sources : List (List PyDict)) :
    ∀ seen, mergeAll seen sources = mergeSrc seen sources.flatten := by
  induction sources with
  | nil => intro seen; simp [mergeAll, mergeSrc]
  | cons src rest ih =>
      intro seen
      simp only [mergeAll, List.flatten_cons, mergeSrc_append, ih]

theorem mergeSrc_eq_firstOccByKey (l : List PyDict) :
    ∀ seen, (mergeSrc seen l).2 =
      firstOccByKey seen
        (l.filter fun j => pyTruthy (dictGet j (str "title") PyVal.none)) := by
  induction l with
  | nil => intro seen; simp [mergeSrc, firstOccByKey]
  | cons job rest ih =>
      intro seen
      by_cases ht : pyTruthy (dictGet job (str "title") PyVal.none) = true
      · by_cases hm : uidOf job ∈ seen
        · rw [mergeSrc_cons_neg (by simp [hm])]
          simp [List.filter_cons, ht, firstOccByKey, hm, ih]
        · rw [mergeSrc_cons_pos ⟨hm, ht⟩]
          simp [List.filter_cons, ht, firstOccByKey, hm, ih]
      · rw [mergeSrc_cons_neg (by simp [ht])]
        simp [List.filter_cons, ht, ih]

theorem mergeSrc_sublist (l : List PyDict) :
    ∀ seen, (mergeSrc seen l).2.Sublist l := by
  induction l with
  | nil => intro seen; simp [mergeSrc]
  | cons job rest ih =>
      intro seen
      by_cases h : uidOf job ∉ seen ∧
          pyTruthy (dictGet job (str "title") PyVal.none) = true
      · rw [mergeSrc_cons_pos h]
        exact (ih (uidOf job :: seen)).cons₂ job
      · rw [mergeSrc_cons_neg h]
        exact (ih seen).cons job

/-- C3 (amended): `merge_results` keeps, among the truthy-titled records
sharing an identity key, exactly the first occurrence in the
concatenation of the inputs in call order, preserving first-seen order
(it is a sublist of the concatenation); merging the Driver/driver
records yields exactly one record. -/
theorem merge_results_spec (sources : List (List PyDict)) :
    merge_results sources = specMerge sources ∧
    (merge_results sources).Sublist sources.flatten ∧
    merge_results [[jobDriverA], [jobDriverB]] = [jobDriverA] := by
  refine ⟨?_, ?_, rfl⟩
  · unfold merge_results specMerge
    rw [mergeAll_eq_flatten, mergeSrc_eq_firstOccByKey]
  · unfold merge_results
    rw [mergeAll_eq_flatten]
    exact mergeSrc_sublist sources.flatten []

/-- Counterexample to C3 as stated: a record whose title is the empty
string is the first (and only) occurrence of its identity key, yet merge
drops it instead of keeping it. -/
theorem merge_results_empty_title_cex :
    merge_results [[jobEmptyTitle]] = [] ∧
    [[jobEmptyTitle]].flatten = [jobEmptyTitle] :=
  ⟨rfl, rfl⟩

theorem mergeSrc_mem_truthy (l : List PyDict) :
    ∀ seen job, job ∈ (mergeSrc seen l).2 →
      pyTruthy (dictGet job (str "title") PyVal.none) = true := by
  induction l with
  | nil => intro seen job h; simp [mergeSrc] at h
  | cons j rest ih =>
      intro seen job h
      by_cases hc : uidOf j ∉ seen ∧
          pyTruthy (dictGet j (str "title") PyVal.none) = true
      · rw [mergeSrc_cons_pos hc] at h
        rcases List.mem_cons.mp h with h | h
        · rw [h]; exact hc.2
        · exact ih (uidOf j :: seen) job h
      · rw [mergeSrc_cons_neg hc] at h
        exact ih seen job h

/-- C4 (amended): every record in the output of `merge_results` has a
truthy (Python-truthy, untrimmed) title; trimming is not applied before
the check, so only records whose raw title is falsy are dropped. -/
theorem merge_results_mem_title_truthy (sources : List (List PyDict))
    (job : PyDict) (h : job ∈ merge_results sources) :
    pyTruthy (dictGet job (str "title") PyVal.none) = true := by
  unfold merge_results at h
  rw [mergeAll_eq_flatten] at h
  exact mergeSrc_mem_truthy sources.flatten [] job h

/-- Witness for C4 at a one-source merge. -/
theorem merge_results_mem_title_truthy_witness :
    pyTruthy (dictGet jobDriverA (str "title") PyVal.none) = true :=
  merge_results_mem_title_truthy [[jobDriverA]] jobDriverA (List.Mem.head [])

/-- Counterexample to C4 as stated: a whitespace-only title is truthy
before trimming, so the record stays in the merged output even though
its title is empty after normalization. -/
theorem merge_results_blank_title_cex :
    trimStr (str " ") = str "" ∧
    merge_results [[jobBlankTitle]] = [jobBlankTitle] :=
  ⟨by decide, rfl⟩

/-! ## Sorting lemmas and C1 -/

theorem insertDesc_perm (x : PyDict) (l : List PyDict) :
    (insertDesc x l).Perm (x :: l) := by
  induction l with
  | nil => simp [insertDesc]
  | cons y ys ih =>
      unfold insertDesc
      split
      · exact List.Perm.refl _
      · exact (ih.cons y).trans (List.Perm.swap x y ys)

theorem sortDesc_perm (l : List PyDict) : (sortDesc l).Perm l := by
  induction l with
  | nil => exact List.Perm.refl _
  | cons x xs ih => exact (insertDesc_perm x (sortDesc xs)).trans (ih.cons x)

theorem insertDesc_sorted (x : PyDict) (l : List PyDict)
    (h : l.Pairwise (fun a b => scoreKey b ≤ scoreKey a)) :
    (insertDesc x l).Pairwise (fun a b => scoreKey b ≤ scoreKey a) := by
  induction l with
  | nil => simp [insertDesc]
  | cons y ys ih =>
      rw [List.pairwise_cons] at h
      unfold insertDesc
      split
      · rename_i hyx
        refine List.pairwise_cons.mpr ⟨?_, List.pairwise_cons.mpr ⟨h.1, h.2⟩⟩
        intro z hz
        rcases List.mem_cons.mp hz with rfl | hz
        · exact hyx
        · exact le_trans (h.1 z hz) hyx
      · rename_i hyx
        refine List.pairwise_cons.mpr ⟨?_, ih h.2⟩
        intro z hz
        have hz' := (insertDesc_perm x ys).mem_iff.mp hz
        rcases List.mem_cons.mp hz' with rfl | hz'
        · exact le_of_lt (lt_of_not_le hyx)
        · exact h.1 z hz'

theorem sortDesc_sorted (l : List PyDict) :
    (sortDesc l).Pairwise (fun a b => scoreKey b ≤ scoreKey a) := by
  induction l with
  | nil => simp [sortDesc]
  | cons x xs ih => exact insertDesc_sorted x (sortDesc xs) ih

theorem insertDesc_filter (x : PyDict) (l : List PyDict) (v : Int) :
    (insertDesc x l).filter (fun y => decide (scoreKey y = v)) =
      if scoreKey x = v
      then x :: l.filter (fun y => decide (scoreKey y = v))
      else l.filter (fun y => decide (scoreKey y = v)) := by
  induction l with
  | nil =>
      by_cases hv : scoreKey x = v <;> simp [insertDesc, List.filter_cons, hv]
  | cons y ys ih =>
      unfold insertDesc
      split
      · by_cases hv : scoreKey x = v <;> simp [List.filter_cons, hv]
      · rename_i hyx
        by_cases hv : scoreKey x = v
        · have hy : scoreKey y ≠ v := fun he =>
            hyx (le_of_eq (he.trans hv.symm))
          simp [List.filter_cons, hv, hy, ih]
        · by_cases hy : scoreKey y = v <;>
            simp [List.filter_cons, hv, hy, ih]

theorem sortDesc_filter (l : List PyDict) (v : Int) :
    (sortDesc l).filter (fun y => decide (scoreKey y = v)) =
      l.filter (fun y => decide (scoreKey y = v)) := by
  induction l with
  | nil => rfl
  | cons x xs ih =>
      show (insertDesc x (sortDesc xs)).filter _ = _
      rw [insertDesc_filter]
      by_cases hv : scoreKey x = v
      · simp [List.filter_cons, hv, ih]
      · simp [List.filter_cons, hv, ih]

theorem filterMap_score_eq (l : List PyDict) (profile : PyDict) (m : Int) :
    (l.filterMap fun job =>
        if m ≤ score_relevance job profile then
          Option.some (dictSet job (str "relevance_score")
            (PyVal.int (score_relevance job profile)))
        else Option.none)
      = (l.filter fun job => decide (m ≤ score_relevance job profile)).map
          fun job => dictSet job (str "relevance_score")
            (PyVal.int (score_relevance job profile)) := by
  induction l with
  | nil => rfl
  | cons x xs ih =>
      by_cases h : m ≤ score_relevance x profile <;>
        simp [List.filterMap_cons, List.filter_cons, h, ih]

/-- C1: for every profile and integer `min_score`, `search_jobs` returns
exactly the merged jobs whose relevance score reaches `min_score`, each
annotated with that score, sorted descending by score with ties
preserving merge order (stable sort); when no job reaches the threshold
the result is the empty list, not an error. -/
theorem search_jobs_filter_sort (a j s : List PyDict) (profile : PyDict)
    (m : Int) :
    (search_jobs_from a j s profile m).Perm
      (((merge_results [a, j, s]).filter
          fun job => decide (m ≤ score_relevance job profile)).map
        fun job => dictSet job (str "relevance_score")
          (PyVal.int (score_relevance job profile))) ∧
    (search_jobs_from a j s profile m).Pairwise
      (fun x y => scoreKey y ≤ scoreKey x) ∧
    (∀ v : Int,
      (search_jobs_from a j s profile m).filter
          (fun y => decide (scoreKey y = v))
        = (((merge_results [a, j, s]).filter
              fun job => decide (m ≤ score_relevance job profile)).map
            fun job => dictSet job (str "relevance_score")
              (PyVal.int (score_relevance job profile))).filter
            (fun y => decide (scoreKey y = v))) ∧
    ((∀ job ∈ merge_results [a, j, s], score_relevance job profile < m) →
      search_jobs_from a j s profile m = []) := by
  have hdef : search_jobs_from a j s profile m =
      sortDesc (((merge_results [a, j, s]).filter
          fun job => decide (m ≤ score_relevance job profile)).map
        fun job => dictSet job (str "relevance_score")
          (PyVal.int (score_relevance job profile))) := by
    unfold search_jobs_from
    dsimp only
    rw [filterMap_score_eq]
  refine ⟨?_, ?_, ?_, ?_⟩
  · rw [hdef]; exact sortDesc_perm _
  · rw [hdef]; exact sortDesc_sorted _
  · intro v; rw [hdef]; exact sortDesc_filter _ v
  · intro hall
    have hf : (merge_results [a, j, s]).filter
        (fun job => decide (m ≤ score_relevance job profile)) = [] := by
      rw [List.filter_eq_nil_iff]
      intro job hj
      simp only [decide_eq_true_eq]
      exact not_le.mpr (hall job hj)
    rw [hdef, hf]
    rfl

/-- Witness for C1: a threshold of 100 that no job reaches yields the
empty list. -/
theorem search_jobs_filter_sort_witness :
    search_jobs_from [jobC9] [] [] [] 100 = [] := by
  apply (search_jobs_filter_sort [jobC9] [] [] [] 100).2.2.2
  intro job hj
  have hj' : job ∈ [jobC9] := hj
  rw [List.mem_singleton.mp hj']
  decide

/-! ## C9: the end-to-end single-job example -/

/-- C9 (amended): with the fixture profile and a pipeline whose merged
input is exactly the single fixture job, the relevance score is exactly
30, with per-rule breakdown 15 (role in title) + 4 (skill in
description) + 11 (location: 8 full substring + 3 partial token) and 0
from every other rule block — the claimed +10 skill-in-title never
fires since "python" is not a substring of the title — so the job
clears `min_score = 5` and is the sole element of the ranked output,
annotated with its score. -/
theorem search_jobs_single_job_score30 :
    merge_results [[jobC9], [], []] = [jobC9] ∧
    roleScore jobC9 profileC9 = 15 ∧
    skillScore jobC9 profileC9 = 4 ∧
    locScore jobC9 profileC9 = 11 ∧
    certScore jobC9 profileC9 = 0 ∧
    eduScore jobC9 profileC9 = 0 ∧
    expScore jobC9 profileC9 = 0 ∧
    langScore jobC9 profileC9 = 0 ∧
    score_relevance jobC9 profileC9 = 30 ∧
    (5 : Int) ≤ score_relevance jobC9 profileC9 ∧
    search_jobs_from [jobC9] [] [] profileC9 5
      = [dictSet jobC9 (str "relevance_score") (PyVal.int 30)] :=
  ⟨rfl, by decide, by decide, by decide, by decide, by decide, by decide,
    by decide, by decide, by decide, rfl⟩

/-- Counterexample to C9 as stated: the computed score is 30, so it is
not at least 37 (the claim's "+10 for skill in title" never fires:
"python" is not a substring of "senior software engineer"). -/
theorem search_jobs_single_job_not37_cex :
    score_relevance jobC9 profileC9 = 30 ∧
    ¬(37 ≤ score_relevance jobC9 profileC9) ∧
    inS (lowerStr (str "Python")) (jobTitleL jobC9) = false :=
  ⟨by decide, by decide, by decide⟩

/-! ## Words lemma and C10 -/

theorem infixOfMemWordsAux (s : Str) :
    ∀ (cur t : Str), t ∈ wordsAux cur s → t <:+: cur.reverse ++ s := by
  induction s with
  | nil =>
      intro cur t h
      unfold wordsAux at h
      split at h
      · simp at h
      · rw [List.mem_singleton] at h
        rw [h, List.append_nil]
  | cons c cs ih =>
      intro cur t h
      unfold wordsAux at h
      split at h
      · split at h
        · rename_i hcur
          rw [hcur]
          have := ih [] t h
          rw [List.reverse_nil, List.nil_append] at this
          exact List.infix_cons this
        · rcases List.mem_cons.mp h with rfl | h'
          · exact (List.prefix_append cur.reverse (c :: cs)).isInfix
          · have := ih [] t h'
            rw [List.reverse_nil, List.nil_append] at this
            exact this.trans
              (((List.suffix_cons c cs).trans
                (List.suffix_append cur.reverse (c :: cs))).isInfix)
      · have := ih (c :: cur) t h
        rw [List.reverse_cons, List.append_assoc] at this
        simpa using this

theorem infixOfMemPyWords (s t : Str) (h : t ∈ pyWords s) : t <:+: s := by
  have := infixOfMemWordsAux s [] t h
  simpa using this

/-- C10: whenever the lower-cased profile location is non-empty, not
"null"/"none", a substring of the lower-cased job location, and has some
whitespace token longer than 2 characters, the +3 partial-token bonus
necessarily fires on top of the +8 full-match bonus: the location block
contributes exactly 11 points, not 8. -/
theorem locScore_full_match_is_eleven (job profile : PyDict)
    (h1 : plOf profile ≠ [])
    (h2 : plOf profile ∉ [str "null", str "none", str ""])
    (h3 : plOf profile <:+: jlOf job)
    (h4 : ∃ t ∈ pyWords (plOf profile), 2 < t.length) :
    locScore job profile = 11 := by
  obtain ⟨t, ht, hlen⟩ := h4
  have htin : t <:+: jlOf job := (infixOfMemPyWords _ t ht).trans h3
  unfold locScore
  dsimp only
  rw [if_pos ⟨h1, h2⟩]
  have h8 : inS (plOf profile) (jlOf job) = true := decide_eq_true h3
  have h3' : ((pyWords (plOf profile)).any
      fun part => decide (2 < part.length) && inS part (jlOf job)) = true := by
    rw [List.any_eq_true]
    refine ⟨t, ht, ?_⟩
    rw [Bool.and_eq_true]
    exact ⟨decide_eq_true hlen, decide_eq_true htin⟩
  rw [h8, h3']
  norm_num

/-- Witness for C10 at the Pune fixture: full location match scores 11. -/
theorem locScore_full_match_is_eleven_witness :
    locScore jobC9 profileC9 = 11 :=
  locScore_full_match_is_eleven jobC9 profileC9
    (by decide) (by decide) (by decide) (by decide)

/-! ## Keyword set membership and C6 -/

theorem mem_firstDedupAux (l : List Str) :
    ∀ (seen : List Str) (a : Str),
      a ∈ firstDedupAux seen l ↔ a ∈ l ∧ a ∉ seen := by
  induction l with
  | nil => intro seen a; simp [firstDedupAux]
  | cons x xs ih =>
      intro seen a
      unfold firstDedupAux
      by_cases hx : x ∈ seen
      · rw [if_pos hx, ih]
        constructor
        · rintro ⟨h1, h2⟩
          exact ⟨List.mem_cons_of_mem x h1, h2⟩
        · rintro ⟨h1, h2⟩
          rcases List.mem_cons.mp h1 with rfl | h1
          · exact absurd hx h2
          · exact ⟨h1, h2⟩
      · rw [if_neg hx]
        constructor
        · intro h
          rcases List.mem_cons.mp h with rfl | h
          · exact ⟨List.mem_cons_self a xs, hx⟩
          · obtain ⟨h1, h2⟩ := (ih (x :: seen) a).mp h
            exact ⟨List.mem_cons_of_mem x h1,
              fun hs => h2 (List.mem_cons_of_mem x hs)⟩
        · rintro ⟨h1, h2⟩
          rcases List.mem_cons.mp h1 with rfl | h1
          · exact List.mem_cons_self a _
          · by_cases hax : a = x
            · rw [hax]; exact List.mem_cons_self x _
            · refine List.mem_cons_of_mem x ((ih (x :: seen) a).mpr ⟨h1, ?_⟩)
              intro hs
              rcases List.mem_cons.mp hs with h | h
              · exact hax h
              · exact h2 h

theorem mem_firstDedup (l : List Str) (a : Str) :
    a ∈ firstDedup l ↔ a ∈ l := by
  simp [firstDedup, mem_firstDedupAux]

/-- C6 (amended): for every profile whose role is a string with no
surrounding whitespace that survives filtering (not case-insensitively
"", "null", "none" or "n/a"), every enumeration of the keyword set puts
that role at index 0 of the generator's output.  (When the role carries
surrounding whitespace the move-to-front check `role in keyword_list`
compares the unstripped role and fails, see the counterexample.) -/
theorem generate_keywords_trimmed_role_first (profile : PyDict)
    (kl : List Str) (r : Str)
    (hperm : kl.Perm (candSet profile))
    (hrole : dictGet profile (str "role") (PyVal.str []) = PyVal.str r)
    (hne : r ≠ [])
    (htrim : trimStr r = r)
    (hfilter : lowerStr r ∉ [str "null", str "none", str "n/a", str ""]) :
    (generate_keywords_from profile kl).head? = Option.some r := by
  have hsub : lowerStr r ∉ [str "null", str "none", str ""] := by
    simp only [List.mem_cons, List.not_mem_nil, or_false] at hfilter ⊢
    tauto
  have hadds : r ∈ kwAdds profile := by
    have hb1 : roleAdds profile = [r] := by
      unfold roleAdds
      rw [hrole]
      dsimp only
      rw [if_pos ⟨hne, hsub⟩, htrim]
    unfold kwAdds
    rw [hb1]
    exact List.mem_append_left _ (List.mem_append_left _
      (List.mem_append_left _ (List.mem_append_left _ (List.mem_singleton.mpr rfl))))
  have hcand : r ∈ candSet profile := by
    unfold candSet
    rw [List.mem_filter]
    exact ⟨(mem_firstDedup _ _).mpr hadds, decide_eq_true ⟨hne, hfilter⟩⟩
  have hkl : r ∈ kl := hperm.mem_iff.mpr hcand
  unfold generate_keywords_from finalizeKeywords
  rw [hrole]
  dsimp only
  rw [if_pos ⟨hne, hkl⟩]
  rfl

/-- Witness for C6 on a whitespace-free role with an adversarial
enumeration order. -/
theorem generate_keywords_trimmed_role_first_witness :
    (generate_keywords_from
        [(str "role", PyVal.str (str "Driver")),
         (str "skills", PyVal.list [PyVal.str (str "Driving")])]
        [str "Driving", str "Driver"]).head? = Option.some (str "Driver") :=
  generate_keywords_trimmed_role_first
    [(str "role", PyVal.str (str "Driver")),
     (str "skills", PyVal.list [PyVal.str (str "Driving")])]
    [str "Driving", str "Driver"] (str "Driver")
    (by decide) rfl (by decide) (by decide) (by decide)

/-- Counterexample to C6 as stated: the role " Driver" (leading space)
trims to "Driver", which survives filtering, yet under the enumeration
`klWsRole` of the keyword set the generator leaves "Driving" at index 0:
the move-to-front compares the unstripped role, which is not in the
list. -/
theorem generate_keywords_ws_role_cex :
    klWsRole.Perm (candSet profileWsRole) ∧
    trimStr (str " Driver") = str "Driver" ∧
    lowerStr (str "Driver") ∉ [str "null", str "none", str "n/a", str ""] ∧
    generate_keywords_from profileWsRole klWsRole = klWsRole ∧
    (generate_keywords_from profileWsRole klWsRole).head?
      ≠ Option.some (str "Driver") := by
  refine ⟨by decide, by decide, by decide, by decide, by decide⟩

/-! ## Adapter failure isolation: C2 and C5 -/

theorem adzunaLoop_exn_all (p : Str → CallResult) (loc : Str)
    (h : ∀ q, p q = CallResult.exn) :
    ∀ (l : List Str) (acc : List PyDict), adzunaLoop p loc l acc = acc := by
  intro l
  induction l with
  | nil => intro acc; rfl
  | cons kw rest ih =>
      intro acc
      simp [adzunaLoop, adzunaStep, h kw]

theorem adzunaLoop_append_exn (p : Str → CallResult) (loc k : Str)
    (hk : p k = CallResult.exn) :
    ∀ (l : List Str) (acc : List PyDict),
      adzunaLoop p loc (l ++ [k]) acc = adzunaLoop p loc l acc := by
  intro l
  induction l with
  | nil =>
      intro acc
      simp [adzunaLoop, adzunaStep, hk]
  | cons kw rest ih =>
      intro acc
      simp only [List.cons_append, adzunaLoop, List.append_eq, ih]

/-- C2: an adapter's fetch never raises: a provider that raises on every
call yields the empty list (not an error value), a totally failed
adapter contributes nothing to the merge without disturbing the other
sources, and a raise on a later keyword keeps the records collected from
the earlier keywords. -/
theorem fetch_adzuna_failure_isolated (p : Str → CallResult)
    (kws : List Str) (loc : Str) (rest : List (List PyDict)) :
    ((∀ q, p q = CallResult.exn) → fetch_adzuna p kws loc = []) ∧
    merge_results ([] :: rest) = merge_results rest ∧
    (∀ k, kws.length ≤ 2 → p k = CallResult.exn →
      fetch_adzuna p (kws ++ [k]) loc = fetch_adzuna p kws loc) := by
  refine ⟨fun h => ?_, rfl, fun k hlen hk => ?_⟩
  · unfold fetch_adzuna
    exact adzunaLoop_exn_all p loc h _ []
  · unfold fetch_adzuna
    rw [List.take_of_length_le (by simp; omega),
        List.take_of_length_le (le_trans hlen (by omega))]
    exact adzunaLoop_append_exn p loc k hk kws []

/-- Witness for C2: a provider raising on every call. -/
theorem fetch_adzuna_failure_isolated_witness :
    fetch_adzuna (fun _ => CallResult.exn) [str "python"] (str "India") = [] ∧
    merge_results ([] :: [[jobDriverA]]) = merge_results [[jobDriverA]] ∧
    fetch_adzuna (fun _ => CallResult.exn)
        ([str "python"] ++ [str "java"]) (str "India")
      = fetch_adzuna (fun _ => CallResult.exn) [str "python"] (str "India") := by
  have h := fetch_adzuna_failure_isolated (fun _ => CallResult.exn)
    [str "python"] (str "India") [[jobDriverA]]
  exact ⟨h.1 (fun q => rfl), h.2.1, h.2.2 (str "java") (by decide) rfl⟩

/-- C5 (amended): a non-2xx response for one keyword is skipped locally
and the adapter continues with the remaining keywords; but a raising
failure (network error or malformed payload) stops the keyword loop and
returns only the records collected so far (see the counterexample). -/
theorem fetch_adzuna_non200_skips (p : Str → CallResult) (kws : List Str)
    (k loc : Str) (s : Int) (b : Option PyVal)
    (hlen : kws.length ≤ 2) (hresp : p k = CallResult.ok s b)
    (hs : s ≠ 200) :
    fetch_adzuna p (k :: kws) loc = fetch_adzuna p kws loc := by
  unfold fetch_adzuna
  rw [show (k :: kws).take 3 = k :: kws.take 2 from rfl,
      List.take_of_length_le hlen,
      List.take_of_length_le (le_trans hlen (by omega))]
  have hstep : adzunaStep p loc k [] = ([], false) := by
    unfold adzunaStep
    rw [hresp]
    dsimp only
    rw [if_neg hs]
  simp [adzunaLoop, hstep]

/-- Witness for C5: a 404 on the first keyword leaves the second
keyword's processing untouched. -/
theorem fetch_adzuna_non200_skips_witness :
    fetch_adzuna (fun _ => CallResult.ok 404 Option.none)
        [str "a", str "b"] (str "India")
      = fetch_adzuna (fun _ => CallResult.ok 404 Option.none)
          [str "b"] (str "India") :=
  fetch_adzuna_non200_skips (fun _ => CallResult.ok 404 Option.none)
    [str "b"] (str "a") (str "India") 404 Option.none
    (by decide) rfl (by decide)

/-- Counterexample to C5 as stated: a network error on keyword "a" is
not caught locally — it aborts the whole adapter run, so keyword "b"'s
records (present when "b" is queried alone) are lost, not merely "a"'s
contribution. -/
theorem fetch_adzuna_exn_aborts_cex :
    providerC5 (str "a") = CallResult.exn ∧
    fetch_adzuna providerC5 [str "a", str "b"] (str "India") = [] ∧
    (fetch_adzuna providerC5 [str "b"] (str "India")).length = 1 :=
  ⟨rfl, rfl, rfl⟩
